import Mathlib

/-!
Verification development for the NACP Bahamas 2025 agricultural-census
application.  The Python modules under `census_app/` are shallowly embedded
here: each SQL-backed operation becomes a pure function on an explicit
database state, fallible statements are driven by an explicit failure
oracle (`fail : Stmt → Bool`, statement raises iff the oracle says so), and
Python floats used only in order comparisons are embedded as rationals.
Tables are lists of `(id, row)` pairs kept in ascending-id order: every
writer appends freshly numbered rows taken from a monotone `nextId`
counter, so list order realizes `ORDER BY id`.
-/

/-- A row of the `agricultural_machinery` table / a machinery form dict,
from `agricultural_machinery.py`.  `equipment_name` is embedded as a list
of characters (Python `str`); quantities are Python ints. -/
structure MRow where
  holder_id : Nat
  has_item : String
  equipment_name : List Char
  quantity_new : Int
  quantity_used : Int
  quantity_out_of_service : Int
  source : String
  deriving DecidableEq, Repr

/-- The six columns returned by `load_existing_data` (everything except
`holder_id`), mirroring the dict built at
`agricultural_machinery.py:113-122`. -/
structure LoadedRow where
  has_item : String
  equipment_name : List Char
  quantity_new : Int
  quantity_used : Int
  quantity_out_of_service : Int
  source : String
  deriving DecidableEq, Repr

/-- Projection `SELECT has_item, equipment_name, quantity_new,
quantity_used, quantity_out_of_service, source`. -/
def projectRow (r : MRow) : LoadedRow :=
  { has_item := r.has_item
    equipment_name := r.equipment_name
    quantity_new := r.quantity_new
    quantity_used := r.quantity_used
    quantity_out_of_service := r.quantity_out_of_service
    source := r.source }

/-- State of the `agricultural_machinery` table: rows tagged with their
SERIAL `id`, plus the next id the sequence will hand out. -/
structure MachDB where
  rows : List (Nat × MRow)
  nextId : Nat
  deriving DecidableEq, Repr

/-- The SQL statements issued by `save_to_db`
(`agricultural_machinery.py:35-92`), in order: the COUNT check, the
conditional DELETE, the bulk INSERT (`execute_values`), and the commit. -/
inductive Stmt
  | selectCount
  | deleteRows
  | insertRows
  | commitTx
  deriving DecidableEq, Repr

/-- Bulk insert with consecutive SERIAL ids, as `execute_values` produces. -/
def machNew (nid : Nat) : List MRow → List (Nat × MRow)
  | [] => []
  | r :: rest => (nid, r) :: machNew (nid + 1) rest

/-- Append freshly numbered rows to the table. -/
def machInsert (db : MachDB) (data : List MRow) : MachDB :=
  { rows := db.rows ++ machNew db.nextId data
    nextId := db.nextId + data.length }

/-- The transaction body of `save_to_db` (the `try` block,
`agricultural_machinery.py:45-77`): count rows for `machinery_data[0]`'s
holder, delete them all if any exist, bulk-insert the new rows, commit.
Returns the trace of statements executed together with either the
committed state or the exception.  A statement raises iff the oracle
`fail` marks it. -/
def save_to_db_tx (fail : Stmt → Bool) (db : MachDB) (data : List MRow) :
    List Stmt × Except Unit MachDB :=
  match data with
  | [] => ([], .ok db)
  | first :: _ =>
    if fail .selectCount then ([.selectCount], .error ()) else
    let h := first.holder_id
    let cnt := (db.rows.filter fun p => p.2.holder_id == h).length
    if cnt > 0 then
      if fail .deleteRows then ([.selectCount, .deleteRows], .error ()) else
      let db1 : MachDB := { db with rows := db.rows.filter fun p => p.2.holder_id != h }
      if fail .insertRows then
        ([.selectCount, .deleteRows, .insertRows], .error ())
      else
        let db2 := machInsert db1 data
        if fail .commitTx then
          ([.selectCount, .deleteRows, .insertRows, .commitTx], .error ())
        else
          ([.selectCount, .deleteRows, .insertRows, .commitTx], .ok db2)
    else
      if fail .insertRows then ([.selectCount, .insertRows], .error ()) else
      let db2 := machInsert db data
      if fail .commitTx then
        ([.selectCount, .insertRows, .commitTx], .error ())
      else
        ([.selectCount, .insertRows, .commitTx], .ok db2)

/-- Outcome of a call to `save_to_db`: resulting table state, the boolean
the function returns, whether `st.warning` was emitted, and the statements
issued. -/
structure SaveResult where
  db : MachDB
  ok : Bool
  warned : Bool
  stmts : List Stmt
  deriving DecidableEq, Repr

/-- `save_to_db` (`agricultural_machinery.py:35-92`): empty input returns
`False` with only a warning and touches nothing; otherwise the transaction
body runs, and the `except` clauses roll the transaction back and return
`False` on any exception. -/
def save_to_db_run (fail : Stmt → Bool) (db : MachDB) (data : List MRow) :
    SaveResult :=
  match data with
  | [] => { db := db, ok := false, warned := true, stmts := [] }
  | first :: rest =>
    match save_to_db_tx fail db (first :: rest) with
    | (tr, .ok db2) => { db := db2, ok := true, warned := false, stmts := tr }
    | (tr, .error _) => { db := db, ok := false, warned := false, stmts := tr }

/-- `save_to_db` in a run where no statement raises. -/
def save_to_db (db : MachDB) (data : List MRow) : SaveResult :=
  save_to_db_run (fun _ => false) db data

/-- `load_existing_data` (`agricultural_machinery.py:95-131`): rows of the
holder in id order, projected to the six selected columns. -/
def load_existing_data (db : MachDB) (holder_id : Nat) : List LoadedRow :=
  (db.rows.filter fun p => p.2.holder_id == holder_id).map fun p => projectRow p.2

/- ---------------- validation (`validate_machinery_data`) ---------------- -/

/-- Python whitespace for `str.strip()` (ASCII part): space, tab, newline,
carriage return, vertical tab, form feed. -/
def pyIsSpace (c : Char) : Bool :=
  c == ' ' || c == '\t' || c == '\n' || c == '\r' || c == '\x0b' || c == '\x0c'

/-- Python `s.strip()`. -/
def pyStrip (s : List Char) : List Char :=
  ((s.dropWhile pyIsSpace).reverse.dropWhile pyIsSpace).reverse

/-- The characters of the literal `"Open Entry"`. -/
def openEntryStr : List Char := "Open Entry".toList

/-- The guard of the first check in `validate_machinery_data`
(`agricultural_machinery.py:139`): `"Open Entry" in equipment_name and not
equipment_name.strip()`. -/
def openEntryCheck (s : List Char) : Bool :=
  decide (List.IsInfix openEntryStr s) && (pyStrip s).isEmpty

/-- The three quantity keys iterated at `agricultural_machinery.py:153`. -/
inductive QtyField
  | qnew
  | qused
  | qout
  deriving DecidableEq, Repr

/-- `row[qty_type]` for each of the three keys. -/
def qtyVal (r : MRow) : QtyField → Int
  | .qnew => r.quantity_new
  | .qused => r.quantity_used
  | .qout => r.quantity_out_of_service

/-- `qty_value < 0 or qty_value > 20`. -/
def qtyBad (v : Int) : Bool := v < 0 || v > 20

/-- One `st.error` emission of `validate_machinery_data`, tagged with the
row index `i` of the enumerate loop and, for range errors, the field. -/
inductive VErr
  | openEntry (i : Nat)
  | nameTooLong (i : Nat)
  | missingQty (i : Nat)
  | qtyRange (i : Nat) (f : QtyField)
  deriving DecidableEq, Repr

/-- The row index an error was reported for. -/
def VErr.idx : VErr → Nat
  | .openEntry i => i
  | .nameTooLong i => i
  | .missingQty i => i
  | .qtyRange i _ => i

/-- The `st.error` calls fired for row `i` by the body of the loop in
`validate_machinery_data` (`agricultural_machinery.py:136-157`), in
program order. -/
def rowErrors (i : Nat) (r : MRow) : List VErr :=
  (if openEntryCheck r.equipment_name then [VErr.openEntry i] else [])
  ++ (if r.equipment_name.length > 100 then [VErr.nameTooLong i] else [])
  ++ (if r.has_item == "Y" &&
        (r.quantity_new + r.quantity_used + r.quantity_out_of_service == 0)
      then [VErr.missingQty i] else [])
  ++ (if qtyBad (qtyVal r .qnew) then [VErr.qtyRange i .qnew] else [])
  ++ (if qtyBad (qtyVal r .qused) then [VErr.qtyRange i .qused] else [])
  ++ (if qtyBad (qtyVal r .qout) then [VErr.qtyRange i .qout] else [])

/-- All `st.error` emissions of the `for i, row in enumerate(...)` loop,
starting at index `i`. -/
def machineryErrorsFrom (i : Nat) : List MRow → List VErr
  | [] => []
  | r :: rest => rowErrors i r ++ machineryErrorsFrom (i + 1) rest

/-- All `st.error` emissions of `validate_machinery_data`. -/
def machineryErrors (data : List MRow) : List VErr :=
  machineryErrorsFrom 0 data

/-- `validate_machinery_data` (`agricultural_machinery.py:134-158`):
`validation_passed` starts `True` and is set `False` exactly when some
check fires, so the returned boolean is "no error was emitted". -/
def validate_machinery_data (data : List MRow) : Bool :=
  (machineryErrors data).isEmpty

/-- The submit handler inside `agricultural_machinery_section`
(`agricultural_machinery.py:266-271`): `save_to_db` runs only if
validation passed; on validation failure nothing is saved. -/
def agricultural_machinery_submit (db : MachDB) (data : List MRow) :
    MachDB × Bool :=
  if validate_machinery_data data then
    let r := save_to_db db data
    (r.db, r.ok)
  else
    (db, false)

/- ---------------- survey progress (`holder_survey_progress`) ---------------- -/

/-- Modelled from the spec: no `CREATE TABLE` for `holder_survey_progress`
exists under `src/`; the spec's schema line gives
`holder_survey_progress(id, holder_id, section_id|section_no, completed)`.
Both column names occur in the code's statements (`main_survey.py` uses
`section_no`, `holding_labour.py` and `holding_labour_permanent.py` use
`section_id`), so the model carries both columns, each nullable. -/
structure PRow where
  holder_id : Nat
  section_no : Option Nat
  section_id : Option Nat
  completed : Bool
  deriving DecidableEq, Repr

/-- State of the `holder_survey_progress` table: `(id, row)` pairs in
ascending-id order plus the SERIAL counter. -/
structure ProgDB where
  rows : List (Nat × PRow)
  nextId : Nat
  deriving DecidableEq, Repr

/-- Set `completed = TRUE` on the row with primary key `i`
(`UPDATE holder_survey_progress SET completed = TRUE WHERE id = :id`). -/
def progSetCompleted (rows : List (Nat × PRow)) (i : Nat) : List (Nat × PRow) :=
  rows.map fun p => if p.1 == i then (p.1, { p.2 with completed := true }) else p

namespace MainSurvey

/-- `main_survey.mark_section_complete` (`main_survey.py:16-43`): fetch the
first row matching `(holder_id, section_no)`; update its `completed` in
place if found, else insert `(holder_id, section_no, TRUE)` (leaving
`section_id` NULL). -/
def mark_section_complete (db : ProgDB) (holder_id section_no : Nat) : ProgDB :=
  match db.rows.find? fun p =>
      p.2.holder_id == holder_id && p.2.section_no == some section_no with
  | some e => { db with rows := progSetCompleted db.rows e.1 }
  | none =>
    { rows := db.rows ++
        [(db.nextId,
          { holder_id := holder_id, section_no := some section_no,
            section_id := none, completed := true })]
      nextId := db.nextId + 1 }

/-- `main_survey.get_completed_sections` (`main_survey.py:45-56`):
`SELECT section_no ... WHERE holder_id = :hid AND completed = TRUE`,
returning the `section_no` column of every match (NULL included). -/
def get_completed_sections (db : ProgDB) (holder_id : Nat) : List (Option Nat) :=
  (db.rows.filter fun p => p.2.holder_id == holder_id && p.2.completed).map
    fun p => p.2.section_no

end MainSurvey

/-- The statements of the labour modules' `mark_section_complete`
transactions: the existence SELECT, the UPDATE or INSERT, the commit of
`engine.begin()`. -/
inductive PStmt
  | selectRow
  | updateRow
  | insertRow
  | commitTx
  deriving DecidableEq, Repr

/-- Shared body of `holding_labour.mark_section_complete`
(`holding_labour.py:79-96`) and
`holding_labour_permanent.mark_section_complete`
(`holding_labour_permanent.py:23-39`), which differ only in `SECTION_NO`:
fetch the first row matching `(holder_id, section_id)`, update `completed`
in place if found, else insert with `section_no` left NULL.  Neither
function has a `try`/`except`, so a raising statement propagates
(`Except.error`) out of the function; `engine.begin()` rolls back in that
case, leaving the state unchanged. -/
def progress_mark_by_section_id (fail : PStmt → Bool) (sec : Nat)
    (db : ProgDB) (holder_id : Nat) : Except Unit ProgDB :=
  if fail .selectRow then .error () else
  match db.rows.find? fun p =>
      p.2.holder_id == holder_id && p.2.section_id == some sec with
  | some e =>
    if fail .updateRow then .error () else
    if fail .commitTx then .error () else
    .ok { db with rows := progSetCompleted db.rows e.1 }
  | none =>
    if fail .insertRow then .error () else
    if fail .commitTx then .error () else
    .ok { rows := db.rows ++
            [(db.nextId,
              { holder_id := holder_id, section_no := none,
                section_id := some sec, completed := true })]
          nextId := db.nextId + 1 }

/-- The labour modules' `mark_section_complete` in a run where no
statement raises. -/
def progress_mark_pure (sec : Nat) (db : ProgDB) (holder_id : Nat) : ProgDB :=
  match progress_mark_by_section_id (fun _ => false) sec db holder_id with
  | .ok db2 => db2
  | .error _ => db

namespace HoldingLabour

/-- `SECTION_NO = 2` (`holding_labour.py:5`). -/
def SECTION_NO : Nat := 2

/-- `holding_labour.mark_section_complete` with an explicit failure
oracle; the function has no exception handler, so its result is the raw
`Except`. -/
def mark_section_complete_run (fail : PStmt → Bool) (db : ProgDB)
    (holder_id : Nat) : Except Unit ProgDB :=
  progress_mark_by_section_id fail SECTION_NO db holder_id

/-- `holding_labour.mark_section_complete` in a run where no statement
raises. -/
def mark_section_complete (db : ProgDB) (holder_id : Nat) : ProgDB :=
  progress_mark_pure SECTION_NO db holder_id

end HoldingLabour

namespace HoldingLabourPermanent

/-- `SECTION_NO = 3` (`holding_labour_permanent.py:20`). -/
def SECTION_NO : Nat := 3

/-- `holding_labour_permanent.mark_section_complete` with an explicit
failure oracle. -/
def mark_section_complete_run (fail : PStmt → Bool) (db : ProgDB)
    (holder_id : Nat) : Except Unit ProgDB :=
  progress_mark_by_section_id fail SECTION_NO db holder_id

/-- `holding_labour_permanent.mark_section_complete` in a run where no
statement raises. -/
def mark_section_complete (db : ProgDB) (holder_id : Nat) : ProgDB :=
  progress_mark_pure SECTION_NO db holder_id

end HoldingLabourPermanent

/- ---------------- land use (`modules/land_use.py`) ---------------- -/

/-- One row of the parcels data editor / `land_use_parcels` insert.  The
dataframe columns "Parcel No.", "Total Acres", "Developed Acres",
"Tenure of Land", "Use of Land", "Irrigated Area (Acres)",
"Land Clearing Methods" map to these fields in order; acre values are
Python floats used only in order comparisons, embedded as rationals. -/
structure Parcel where
  parcel_no : Int
  total_acres : ℚ
  developed_acres : ℚ
  tenure : String
  use_of_land : String
  irrigated_area : ℚ
  land_clearing : String
  deriving DecidableEq, Repr

/-- One error string appended by `validate_parcels`
(`land_use.py:174-192`), tagged with the offending parcel number. -/
inductive PErr
  | totalNeg (parcel_no : Int)
  | devNeg (parcel_no : Int)
  | irrNeg (parcel_no : Int)
  | devExceedsTotal (parcel_no : Int)
  deriving DecidableEq, Repr

/-- The `errors.append` calls of one iteration of the `validate_parcels`
loop, in program order.  The `irrigated_area > total_acres` case at
`land_use.py:190-191` calls `st.warning` and appends nothing. -/
def parcelRowErrors (row : Parcel) : List PErr :=
  (if row.total_acres < 0 then [PErr.totalNeg row.parcel_no] else [])
  ++ (if row.developed_acres < 0 then [PErr.devNeg row.parcel_no] else [])
  ++ (if row.irrigated_area < 0 then [PErr.irrNeg row.parcel_no] else [])
  ++ (if row.developed_acres > row.total_acres
      then [PErr.devExceedsTotal row.parcel_no] else [])

/-- `validate_parcels` (`land_use.py:174-192`): the collected error list
over all rows. -/
def validate_parcels (parcels_df : List Parcel) : List PErr :=
  (parcels_df.map parcelRowErrors).flatten

/-- The `st.warning` emissions of `validate_parcels`: one per row with
`irrigated_area > total_acres` (`land_use.py:190-191`). -/
def parcelWarnings (parcels_df : List Parcel) : List Int :=
  (parcels_df.filter fun row => row.irrigated_area > row.total_acres).map
    fun row => row.parcel_no

/-- The `land_use_data` dict assembled before saving
(`land_use.py:402-410`). -/
structure LandUseData where
  total_area : ℚ
  years_used : ℚ
  main_purpose : String
  num_parcels : Int
  location : String
  crop_methods : List String
  parcels : List Parcel
  deriving DecidableEq, Repr

/-- A row of the `land_use` table. -/
structure LURow where
  holder_id : Nat
  total_area_acres : ℚ
  years_agriculture : ℚ
  main_purpose : String
  num_parcels : Int
  location : String
  crop_methods : List String
  deriving DecidableEq, Repr

/-- A row of the `land_use_parcels` table. -/
structure LPRow where
  land_use_id : Nat
  parcel_no : Int
  total_acres : ℚ
  developed_acres : ℚ
  tenure : String
  use_of_land : String
  irrigated_area : ℚ
  land_clearing : String
  deriving DecidableEq, Repr

/-- State of the two land-use tables, each with its SERIAL counter. -/
structure LandDB where
  lu_rows : List (Nat × LURow)
  lp_rows : List (Nat × LPRow)
  luNextId : Nat
  lpNextId : Nat
  deriving DecidableEq, Repr

/-- The statements issued by `save_land_use_to_db` (`land_use.py:29-115`),
in order: existence SELECT; then UPDATE plus parcel DELETE, or INSERT
RETURNING; then the parcels `execute_values` INSERT; then the commit. -/
inductive LStmt
  | selectExisting
  | updateLandUse
  | deleteParcels
  | insertLandUse
  | insertParcels
  | commitTx
  deriving DecidableEq, Repr

/-- Bulk parcel insert with consecutive SERIAL ids. -/
def lpNew (nid : Nat) (lid : Nat) : List Parcel → List (Nat × LPRow)
  | [] => []
  | p :: rest =>
    (nid, { land_use_id := lid, parcel_no := p.parcel_no,
            total_acres := p.total_acres, developed_acres := p.developed_acres,
            tenure := p.tenure, use_of_land := p.use_of_land,
            irrigated_area := p.irrigated_area, land_clearing := p.land_clearing })
      :: lpNew (nid + 1) lid rest

/-- The transaction body of `save_land_use_to_db` (`land_use.py:38-106`):
look up the holder's `land_use` row; update it and delete its parcels if
present, else insert a new one; bulk-insert the parcels; commit.  A
statement raises iff the oracle marks it. -/
def save_land_use_tx (fail : LStmt → Bool) (db : LandDB)
    (land_use_data : LandUseData) (holder_id : Nat) : Except Unit LandDB :=
  if fail .selectExisting then .error () else
  match db.lu_rows.find? fun p => p.2.holder_id == holder_id with
  | some e =>
    if fail .updateLandUse then .error () else
    let lid := e.1
    let lu1 := db.lu_rows.map fun p =>
      if p.1 == lid then
        (p.1, { p.2 with
                  total_area_acres := land_use_data.total_area,
                  years_agriculture := land_use_data.years_used,
                  main_purpose := land_use_data.main_purpose,
                  num_parcels := land_use_data.num_parcels,
                  location := land_use_data.location,
                  crop_methods := land_use_data.crop_methods })
      else p
    if fail .deleteParcels then .error () else
    let lp1 := db.lp_rows.filter fun p => p.2.land_use_id != lid
    if fail .insertParcels then .error () else
    let lp2 := lp1 ++ lpNew db.lpNextId lid land_use_data.parcels
    if fail .commitTx then .error () else
    .ok { db with lu_rows := lu1, lp_rows := lp2,
                  lpNextId := db.lpNextId + land_use_data.parcels.length }
  | none =>
    if fail .insertLandUse then .error () else
    let lid := db.luNextId
    let lu1 := db.lu_rows ++
      [(lid, { holder_id := holder_id,
               total_area_acres := land_use_data.total_area,
               years_agriculture := land_use_data.years_used,
               main_purpose := land_use_data.main_purpose,
               num_parcels := land_use_data.num_parcels,
               location := land_use_data.location,
               crop_methods := land_use_data.crop_methods })]
    if fail .insertParcels then .error () else
    let lp2 := db.lp_rows ++ lpNew db.lpNextId lid land_use_data.parcels
    if fail .commitTx then .error () else
    .ok { lu_rows := lu1, lp_rows := lp2, luNextId := db.luNextId + 1,
          lpNextId := db.lpNextId + land_use_data.parcels.length }

/-- `save_land_use_to_db` (`land_use.py:29-115`): the `except` clause
rolls the transaction back and returns `False` on any exception. -/
def save_land_use_run (fail : LStmt → Bool) (db : LandDB)
    (land_use_data : LandUseData) (holder_id : Nat) : LandDB × Bool :=
  match save_land_use_tx fail db land_use_data holder_id with
  | .ok db2 => (db2, true)
  | .error _ => (db, false)

/-- The progress rows recorded for a `(holder_id, section_no)` pair: what
`main_survey.mark_section_complete`'s existence check matches. -/
def pairRows (db : ProgDB) (hid sec : Nat) : List (Nat × PRow) :=
  db.rows.filter fun p => p.2.holder_id == hid && p.2.section_no == some sec

/- ---------------- concrete sample values ---------------- -/

/-- An empty `agricultural_machinery` table (first-time holder). -/
def emptyMachDB : MachDB := { rows := [], nextId := 1 }

/-- A well-formed machinery row for holder 42. -/
def sampleRowOk : MRow :=
  { holder_id := 42, has_item := "Y",
    equipment_name := "Tractors (below 100 horsepower)".toList,
    quantity_new := 1, quantity_used := 0, quantity_out_of_service := 0,
    source := "O" }

/-- A second well-formed machinery row for holder 42. -/
def sampleRowOk2 : MRow :=
  { holder_id := 42, has_item := "N",
    equipment_name := "Sprayers and dusters".toList,
    quantity_new := 0, quantity_used := 0, quantity_out_of_service := 0,
    source := "O" }

/-- A machinery row with `quantity_new` above the 0–20 range. -/
def sampleRowBadQty : MRow :=
  { holder_id := 42, has_item := "N",
    equipment_name := "Trucks (including pickups)".toList,
    quantity_new := 21, quantity_used := 0, quantity_out_of_service := 0,
    source := "O" }

/-- The spec's scenario row: `has_item = "Y"` with all quantities zero. -/
def sampleRowNoQty : MRow :=
  { holder_id := 42, has_item := "Y", equipment_name := "Tractor".toList,
    quantity_new := 0, quantity_used := 0, quantity_out_of_service := 0,
    source := "O" }

/-- An empty `holder_survey_progress` table. -/
def emptyProgDB : ProgDB := { rows := [], nextId := 1 }

/-- An empty pair of land-use tables. -/
def emptyLandDB : LandDB :=
  { lu_rows := [], lp_rows := [], luNextId := 1, lpNextId := 1 }

/-- A parcel whose irrigated area exceeds its total acreage but which
passes every hard check. -/
def sampleParcelIrr : Parcel :=
  { parcel_no := 1, total_acres := 2, developed_acres := 1,
    tenure := "Privately Owned", use_of_land := "Temporary Crops",
    irrigated_area := 3, land_clearing := "Regenerative" }

/-- A parcel whose developed acreage exceeds its total acreage. -/
def sampleParcelDev : Parcel :=
  { parcel_no := 2, total_acres := 1, developed_acres := 2,
    tenure := "Privately Owned", use_of_land := "Temporary Crops",
    irrigated_area := 0, land_clearing := "Regenerative" }

/-- A land-use submission with a single parcel. -/
def sampleLandUseData : LandUseData :=
  { total_area := 5, years_used := 2, main_purpose := "For Sale Only/Commercial",
    num_parcels := 1, location := "Nassau", crop_methods := ["Open Field"],
    parcels := [sampleParcelIrr] }

/- ---------------- helper lemmas ---------------- -/

lemma pyStrip_eq_nil_forall {s : List Char} (h : pyStrip s = []) :
    ∀ c ∈ s, pyIsSpace c := by
  have h1 : (s.dropWhile pyIsSpace).reverse.dropWhile pyIsSpace = [] := by
    simpa [pyStrip, List.reverse_eq_nil_iff] using h
  have h2 : ∀ c ∈ s.dropWhile pyIsSpace, pyIsSpace c := by
    intro c hc
    exact List.dropWhile_eq_nil_iff.mp h1 c (List.mem_reverse.mpr hc)
  intro c hc
  rw [← List.takeWhile_append_dropWhile pyIsSpace s] at hc
  rcases List.mem_append.mp hc with h3 | h3
  · exact List.mem_takeWhile_imp h3
  · exact h2 c h3

lemma openEntryCheck_eq_false (s : List Char) : openEntryCheck s = false := by
  cases hoe : openEntryCheck s with
  | false => rfl
  | true =>
    exfalso
    have hoe' : (decide (List.IsInfix openEntryStr s) && (pyStrip s).isEmpty) = true := by
      simpa [openEntryCheck] using hoe
    obtain ⟨h1, h2⟩ := Bool.and_eq_true_iff.mp hoe'
    have hinf : List.IsInfix openEntryStr s := of_decide_eq_true h1
    have hnil : pyStrip s = [] := by simpa using h2
    have hO : 'O' ∈ s := hinf.subset (by simp [openEntryStr])
    have := pyStrip_eq_nil_forall hnil 'O' hO
    simp [pyIsSpace] at this

lemma openEntry_not_mem_rowErrors (i k : Nat) (r : MRow) :
    VErr.openEntry i ∉ rowErrors k r := by
  simp only [rowErrors, openEntryCheck_eq_false, if_false, List.nil_append,
    List.mem_append]
  intro h
  rcases h with ((h | h) | h) | h <;> split at h <;> simp_all

lemma mem_machineryErrorsFrom {e : VErr} {n : Nat} {data : List MRow} :
    e ∈ machineryErrorsFrom n data ↔
      ∃ k r, data.get? k = some r ∧ e ∈ rowErrors (n + k) r := by
  induction data generalizing n with
  | nil => simp [machineryErrorsFrom]
  | cons r rest ih =>
    simp only [machineryErrorsFrom, List.mem_append, ih]
    constructor
    · rintro (h | ⟨k, r', hget, hmem⟩)
      · exact ⟨0, r, rfl, by simpa using h⟩
      · refine ⟨k + 1, r', by simpa using hget, ?_⟩
        have : n + 1 + k = n + (k + 1) := by omega
        rwa [this] at hmem
    · rintro ⟨k, r', hget, hmem⟩
      cases k with
      | zero =>
        left
        obtain rfl : r' = r := by simpa using hget.symm
        simpa using hmem
      | succ k =>
        right
        refine ⟨k, r', by simpa using hget, ?_⟩
        have : n + 1 + k = n + (k + 1) := by omega
        rwa [this]

/-- C10: the "Please specify the equipment type for Open Entry" branch of
`validate_machinery_data` is guarded by "`equipment_name` contains
`"Open Entry"` and strips to empty", which no string satisfies; the error
is never emitted for any input row list. -/
theorem open_entry_branch_unreachable :
    (∀ s : List Char, openEntryCheck s = false) ∧
    ∀ (data : List MRow) (i : Nat), VErr.openEntry i ∉ machineryErrors data := by
  refine ⟨openEntryCheck_eq_false, ?_⟩
  intro data i hmem
  obtain ⟨k, r, _, hrow⟩ := mem_machineryErrorsFrom.mp hmem
  exact openEntry_not_mem_rowErrors i (0 + k) r hrow

/-- C8: `save_to_db` on an empty row list issues no statement, leaves the
table unchanged, returns `False`, and reports via `st.warning`. -/
theorem empty_save_noop (fail : Stmt → Bool) (db : MachDB) :
    save_to_db_run fail db [] =
      { db := db, ok := false, warned := true, stmts := [] } := rfl

lemma qtyRange_mem_rowErrors {i k : Nat} {f : QtyField} {r : MRow} :
    VErr.qtyRange i f ∈ rowErrors k r ↔ i = k ∧ qtyBad (qtyVal r f) = true := by
  by_cases h100 : r.equipment_name.length > 100 <;>
  by_cases hY : (r.has_item == "Y" &&
      (r.quantity_new + r.quantity_used + r.quantity_out_of_service == 0)) = true <;>
  by_cases b1 : qtyBad r.quantity_new = true <;>
  by_cases b2 : qtyBad r.quantity_used = true <;>
  by_cases b3 : qtyBad r.quantity_out_of_service = true <;>
  cases f <;>
  simp_all [rowErrors, qtyVal, openEntryCheck_eq_false, -Bool.and_eq_true]

lemma missingQty_mem_rowErrors {i k : Nat} {r : MRow} :
    VErr.missingQty i ∈ rowErrors k r ↔
      i = k ∧ (r.has_item == "Y" &&
        (r.quantity_new + r.quantity_used + r.quantity_out_of_service == 0)) = true := by
  by_cases h100 : r.equipment_name.length > 100 <;>
  by_cases hY : (r.has_item == "Y" &&
      (r.quantity_new + r.quantity_used + r.quantity_out_of_service == 0)) = true <;>
  by_cases b1 : qtyBad r.quantity_new = true <;>
  by_cases b2 : qtyBad r.quantity_used = true <;>
  by_cases b3 : qtyBad r.quantity_out_of_service = true <;>
  simp_all [rowErrors, qtyVal, openEntryCheck_eq_false, -Bool.and_eq_true] <;>
  exact and_comm

lemma validate_eq_false_of_mem {e : VErr} {data : List MRow}
    (h : e ∈ machineryErrors data) : validate_machinery_data data = false := by
  simpa [validate_machinery_data, List.isEmpty_iff] using List.ne_nil_of_mem h

lemma submit_of_validate_false {db : MachDB} {data : List MRow}
    (h : validate_machinery_data data = false) :
    agricultural_machinery_submit db data = (db, false) := by
  simp [agricultural_machinery_submit, h]

lemma qtyRange_mem_machineryErrors {data : List MRow} {i : Nat} {f : QtyField} :
    VErr.qtyRange i f ∈ machineryErrors data ↔
      ∃ r, data.get? i = some r ∧ qtyBad (qtyVal r f) = true := by
  unfold machineryErrors
  rw [mem_machineryErrorsFrom]
  constructor
  · rintro ⟨k, r, hget, hmem⟩
    obtain ⟨hik, hbad⟩ := qtyRange_mem_rowErrors.mp hmem
    refine ⟨r, ?_, hbad⟩
    have : i = k := by omega
    rwa [this]
  · rintro ⟨r, hget, hbad⟩
    exact ⟨i, r, hget, qtyRange_mem_rowErrors.mpr ⟨by omega, hbad⟩⟩

lemma missingQty_mem_machineryErrors {data : List MRow} {i : Nat} :
    VErr.missingQty i ∈ machineryErrors data ↔
      ∃ r, data.get? i = some r ∧
        (r.has_item == "Y" &&
          (r.quantity_new + r.quantity_used + r.quantity_out_of_service == 0)) = true := by
  unfold machineryErrors
  rw [mem_machineryErrorsFrom]
  constructor
  · rintro ⟨k, r, hget, hmem⟩
    obtain ⟨hik, hbad⟩ := missingQty_mem_rowErrors.mp hmem
    refine ⟨r, ?_, hbad⟩
    have : i = k := by omega
    rwa [this]
  · rintro ⟨r, hget, hbad⟩
    exact ⟨i, r, hget, missingQty_mem_rowErrors.mpr ⟨by omega, hbad⟩⟩

/-- C4: a quantity outside `[0, 20]` in any row makes
`validate_machinery_data` return `False` and blocks the save; and the
range checks fire exactly on out-of-range values, so an in-range value is
never rejected by them. -/
theorem validate_machinery_quantity_range (data : List MRow) :
    ((∃ r ∈ data, ∃ f, qtyBad (qtyVal r f) = true) →
      validate_machinery_data data = false ∧
      ∀ db : MachDB, agricultural_machinery_submit db data = (db, false)) ∧
    (∀ (i : Nat) (f : QtyField),
      VErr.qtyRange i f ∈ machineryErrors data ↔
        ∃ r, data.get? i = some r ∧ qtyBad (qtyVal r f) = true) := by
  constructor
  · rintro ⟨r, hr, f, hbad⟩
    obtain ⟨i, hget⟩ := List.mem_iff_get?.mp hr
    have hmem : VErr.qtyRange i f ∈ machineryErrors data :=
      qtyRange_mem_machineryErrors.mpr ⟨r, hget, hbad⟩
    have hval := validate_eq_false_of_mem hmem
    exact ⟨hval, fun db => submit_of_validate_false hval⟩
  · intro i f
    exact qtyRange_mem_machineryErrors

/-- Witness for C4 at a concrete input: a row with `quantity_new = 21`
fails validation and is not persisted. -/
theorem validate_machinery_quantity_range_witness :
    validate_machinery_data [sampleRowOk, sampleRowBadQty] = false ∧
    agricultural_machinery_submit emptyMachDB [sampleRowOk, sampleRowBadQty] =
      (emptyMachDB, false) := by
  have h := (validate_machinery_quantity_range [sampleRowOk, sampleRowBadQty]).1
    ⟨sampleRowBadQty, by simp, QtyField.qnew, by decide⟩
  exact ⟨h.1, h.2 emptyMachDB⟩

/-- C5: a row flagged `has_item = "Y"` with all three quantities zero
fails validation (and the check is applied at every row index, not just
the first), so the submit handler never calls `save_to_db` and a
first-time holder still loads an empty list afterwards. -/
theorem validate_machinery_conditional_requirement (data : List MRow) (r : MRow) :
    (r ∈ data → r.has_item = "Y" →
      r.quantity_new + r.quantity_used + r.quantity_out_of_service = 0 →
      validate_machinery_data data = false ∧
      ∀ (db : MachDB) (holder : Nat),
        agricultural_machinery_submit db data = (db, false) ∧
        (load_existing_data db holder = [] →
          load_existing_data (agricultural_machinery_submit db data).1 holder = [])) ∧
    (∀ i : Nat, data.get? i = some r → r.has_item = "Y" →
      r.quantity_new + r.quantity_used + r.quantity_out_of_service = 0 →
      VErr.missingQty i ∈ machineryErrors data) := by
  have key : ∀ i : Nat, data.get? i = some r → r.has_item = "Y" →
      r.quantity_new + r.quantity_used + r.quantity_out_of_service = 0 →
      VErr.missingQty i ∈ machineryErrors data := by
    intro i hget hy hz
    exact missingQty_mem_machineryErrors.mpr ⟨r, hget, by simp [hy, hz]⟩
  constructor
  · intro hmem hy hz
    obtain ⟨i, hget⟩ := List.mem_iff_get?.mp hmem
    have hval := validate_eq_false_of_mem (key i hget hy hz)
    refine ⟨hval, fun db holder => ?_⟩
    have hsub : agricultural_machinery_submit db data = (db, false) :=
      submit_of_validate_false hval
    refine ⟨hsub, fun hload => ?_⟩
    rw [hsub]
    simpa using hload
  · exact key

/-- Witness for C5 at the spec's scenario: holder 42 submits the
all-zero "Tractor" row into an empty table; validation fails, nothing is
saved, and a load still returns the empty list. -/
theorem validate_machinery_conditional_requirement_witness :
    validate_machinery_data [sampleRowNoQty] = false ∧
    agricultural_machinery_submit emptyMachDB [sampleRowNoQty] =
      (emptyMachDB, false) ∧
    load_existing_data (agricultural_machinery_submit emptyMachDB
      [sampleRowNoQty]).1 42 = [] := by
  have h := (validate_machinery_conditional_requirement [sampleRowNoQty]
      sampleRowNoQty).1 (by simp) (by decide) (by decide)
  obtain ⟨h1, h2⟩ := h
  obtain ⟨h21, h22⟩ := h2 emptyMachDB 42
  exact ⟨h1, h21, h22 (by decide)⟩

/-- C3: `developed_acres > total_acres` always contributes a hard error to
the list `validate_parcels` returns; `irrigated_area > total_acres` never
does (a row failing only that comparison yields an empty error list), it
only emits a warning. -/
theorem validate_parcels_dev_vs_irrigated (parcels_df : List Parcel) :
    (∀ row ∈ parcels_df, row.developed_acres > row.total_acres →
      PErr.devExceedsTotal row.parcel_no ∈ validate_parcels parcels_df ∧
      validate_parcels parcels_df ≠ []) ∧
    ((∀ row ∈ parcels_df, 0 ≤ row.total_acres ∧ 0 ≤ row.developed_acres ∧
        0 ≤ row.irrigated_area ∧ row.developed_acres ≤ row.total_acres) →
      validate_parcels parcels_df = []) ∧
    (∀ row ∈ parcels_df, row.irrigated_area > row.total_acres →
      row.parcel_no ∈ parcelWarnings parcels_df) := by
  refine ⟨?_, ?_, ?_⟩
  · intro row hrow hdev
    have hmem : PErr.devExceedsTotal row.parcel_no ∈ parcelRowErrors row := by
      simp [parcelRowErrors, hdev, List.mem_append]
    have hin : PErr.devExceedsTotal row.parcel_no ∈ validate_parcels parcels_df :=
      List.mem_flatten.mpr
        ⟨parcelRowErrors row, List.mem_map_of_mem _ hrow, hmem⟩
    exact ⟨hin, List.ne_nil_of_mem hin⟩
  · intro hok
    have hall : ∀ l ∈ parcels_df.map parcelRowErrors, l = [] := by
      intro l hl
      obtain ⟨row, hrow, rfl⟩ := List.mem_map.mp hl
      obtain ⟨h1, h2, h3, h4⟩ := hok row hrow
      simp [parcelRowErrors, not_lt.mpr h1, not_lt.mpr h2, not_lt.mpr h3,
        not_lt.mpr h4]
    exact List.flatten_eq_nil_iff.mpr hall
  · intro row hrow hirr
    exact List.mem_map_of_mem _ (List.mem_filter.mpr ⟨hrow, by simpa using hirr⟩)

/-- Witness for C3 at concrete parcels: a parcel with
`developed_acres = 2 > 1 = total_acres` produces a hard error, while a
parcel whose only anomaly is `irrigated_area = 3 > 2 = total_acres`
validates with an empty error list and a warning. -/
theorem validate_parcels_dev_vs_irrigated_witness :
    PErr.devExceedsTotal 2 ∈ validate_parcels [sampleParcelDev] ∧
    validate_parcels [sampleParcelIrr] = [] ∧
    (1 : Int) ∈ parcelWarnings [sampleParcelIrr] := by
  refine ⟨((validate_parcels_dev_vs_irrigated [sampleParcelDev]).1
      sampleParcelDev (by simp) (by norm_num [sampleParcelDev])).1, ?_, ?_⟩
  · exact (validate_parcels_dev_vs_irrigated [sampleParcelIrr]).2.1
      (by intro row hrow; simp at hrow; subst hrow; norm_num [sampleParcelIrr])
  · exact (validate_parcels_dev_vs_irrigated [sampleParcelIrr]).2.2
      sampleParcelIrr (by simp) (by norm_num [sampleParcelIrr])

lemma machNew_filter_self {h : Nat} {data : List MRow} {nid : Nat}
    (hall : ∀ r ∈ data, r.holder_id = h) :
    (machNew nid data).filter (fun p => p.2.holder_id == h) = machNew nid data := by
  induction data generalizing nid with
  | nil => rfl
  | cons r rest ih =>
    have h1 : (r.holder_id == h) = true := by
      simp [hall r (List.mem_cons_self r rest)]
    simp [machNew, List.filter_cons, h1,
      ih (fun x hx => hall x (List.mem_cons_of_mem r hx))]

lemma machNew_map_proj {data : List MRow} {nid : Nat} :
    (machNew nid data).map (fun p => projectRow p.2) = data.map projectRow := by
  induction data generalizing nid with
  | nil => rfl
  | cons r rest ih => simp [machNew, ih]

lemma load_after_save (db : MachDB) (first : MRow) (rest : List MRow) (h : Nat)
    (hall : ∀ r ∈ first :: rest, r.holder_id = h) :
    load_existing_data (save_to_db db (first :: rest)).db h
      = (first :: rest).map projectRow := by
  have hfirst : first.holder_id = h := hall first (List.mem_cons_self _ _)
  by_cases hcnt :
      0 < (db.rows.filter fun p => p.2.holder_id == first.holder_id).length
  · have hsave : (save_to_db db (first :: rest)).db =
        machInsert
          { db with rows := db.rows.filter fun p => p.2.holder_id != first.holder_id }
          (first :: rest) := by
      simp [save_to_db, save_to_db_run, save_to_db_tx, hcnt]
    rw [hsave]
    have hnil : (db.rows.filter fun p => p.2.holder_id != first.holder_id).filter
        (fun p => p.2.holder_id == h) = [] := by
      apply List.filter_eq_nil_iff.mpr
      intro p hp
      have h2 := (List.mem_filter.mp hp).2
      rw [hfirst] at h2
      simp_all [bne_iff_ne]
    simp only [load_existing_data, machInsert, List.filter_append, hnil,
      List.nil_append, machNew_filter_self hall, machNew_map_proj]
  · have hzero : (db.rows.filter fun p => p.2.holder_id == first.holder_id) = [] :=
      List.length_eq_zero.mp (by omega)
    have hsave : (save_to_db db (first :: rest)).db = machInsert db (first :: rest) := by
      simp [save_to_db, save_to_db_run, save_to_db_tx, hcnt]
    rw [hsave]
    have hnil : db.rows.filter (fun p => p.2.holder_id == h) = [] := by
      rw [← hfirst]
      exact hzero
    simp only [load_existing_data, machInsert, List.filter_append, hnil,
      List.nil_append, machNew_filter_self hall, machNew_map_proj]

/-- C1: saving a non-empty row set for a holder and loading that holder
returns exactly the projection of the saved rows, in order; a second save
for the same holder fully replaces the first (the load after it is exactly
the second row set, with no residual rows). -/
theorem save_load_roundtrip (db : MachDB) (first : MRow) (rest : List MRow)
    (h : Nat) (hall : ∀ r ∈ first :: rest, r.holder_id = h) :
    load_existing_data (save_to_db db (first :: rest)).db h
      = (first :: rest).map projectRow ∧
    ∀ (first2 : MRow) (rest2 : List MRow),
      (∀ r ∈ first2 :: rest2, r.holder_id = h) →
      load_existing_data
          (save_to_db (save_to_db db (first :: rest)).db (first2 :: rest2)).db h
        = (first2 :: rest2).map projectRow :=
  ⟨load_after_save db first rest h hall,
   fun first2 rest2 hall2 => load_after_save _ first2 rest2 h hall2⟩

/-- Witness for C1 at concrete data: two rows saved for holder 42 load
back exactly; a subsequent one-row save supersedes them. -/
theorem save_load_roundtrip_witness :
    load_existing_data (save_to_db emptyMachDB [sampleRowOk, sampleRowOk2]).db 42
      = [projectRow sampleRowOk, projectRow sampleRowOk2] ∧
    load_existing_data
        (save_to_db (save_to_db emptyMachDB [sampleRowOk, sampleRowOk2]).db
          [sampleRowNoQty]).db 42
      = [projectRow sampleRowNoQty] := by
  have h := save_load_roundtrip emptyMachDB sampleRowOk [sampleRowOk2] 42
    (by decide)
  exact ⟨h.1, h.2 sampleRowNoQty [] (by decide)⟩

lemma ms_mark_insert (db : ProgDB) (hid sec : Nat)
    (hfind : db.rows.find?
        (fun p => p.2.holder_id == hid && p.2.section_no == some sec) = none) :
    MainSurvey.mark_section_complete db hid sec =
      { rows := db.rows ++
          [(db.nextId, { holder_id := hid, section_no := some sec,
                         section_id := none, completed := true })]
        nextId := db.nextId + 1 } := by
  unfold MainSurvey.mark_section_complete
  rw [hfind]

lemma ms_mark_update (db : ProgDB) (hid sec : Nat) (e : Nat × PRow)
    (hfind : db.rows.find?
        (fun p => p.2.holder_id == hid && p.2.section_no == some sec) = some e) :
    MainSurvey.mark_section_complete db hid sec =
      { db with rows := progSetCompleted db.rows e.1 } := by
  unfold MainSurvey.mark_section_complete
  rw [hfind]

lemma progSetCompleted_twice (rows : List (Nat × PRow)) (i : Nat) :
    progSetCompleted (progSetCompleted rows i) i = progSetCompleted rows i := by
  unfold progSetCompleted
  rw [List.map_map]
  apply List.map_congr_left
  intro p _
  by_cases h : p.1 = i
  · simp [h]
  · simp [h]

lemma progSetCompleted_fresh (rows : List (Nat × PRow)) (nid : Nat)
    (hfresh : ∀ p ∈ rows, p.1 < nid) :
    progSetCompleted rows nid = rows := by
  unfold progSetCompleted
  have hid : ∀ p ∈ rows,
      (if p.1 == nid then (p.1, { p.2 with completed := true }) else p) = id p := by
    intro p hp
    have hne : (p.1 == nid) = false := by
      simp [Nat.ne_of_lt (hfresh p hp)]
    simp [hne]
  rw [List.map_congr_left hid, List.map_id]

/-- C2: `main_survey.mark_section_complete` is idempotent — the second
call updates in place and changes nothing — and, from any state
satisfying the at-most-one-row invariant, two successive calls leave
exactly one progress row for the `(holder, section)` pair, with
`completed = true`. -/
theorem mark_section_complete_idempotent (db : ProgDB) (hid sec : Nat)
    (hfresh : ∀ p ∈ db.rows, p.1 < db.nextId) :
    MainSurvey.mark_section_complete
        (MainSurvey.mark_section_complete db hid sec) hid sec
      = MainSurvey.mark_section_complete db hid sec ∧
    ((pairRows db hid sec).length ≤ 1 →
      (pairRows (MainSurvey.mark_section_complete
          (MainSurvey.mark_section_complete db hid sec) hid sec) hid sec).length
        = 1 ∧
      ∀ p ∈ pairRows (MainSurvey.mark_section_complete
          (MainSurvey.mark_section_complete db hid sec) hid sec) hid sec,
        p.2.completed = true) := by
  cases hfind : db.rows.find?
      (fun p => p.2.holder_id == hid && p.2.section_no == some sec) with
  | none =>
    have hm := ms_mark_insert db hid sec hfind
    have hfind2 : (db.rows ++
        [(db.nextId, ({ holder_id := hid, section_no := some sec,
                        section_id := none, completed := true } : PRow))]).find?
          (fun p => p.2.holder_id == hid && p.2.section_no == some sec)
        = some (db.nextId,
            { holder_id := hid, section_no := some sec,
              section_id := none, completed := true }) := by
      rw [List.find?_append, hfind]
      simp
    have hrows : progSetCompleted (db.rows ++
        [(db.nextId, ({ holder_id := hid, section_no := some sec,
                        section_id := none, completed := true } : PRow))]) db.nextId
        = db.rows ++
          [(db.nextId, { holder_id := hid, section_no := some sec,
                         section_id := none, completed := true })] := by
      unfold progSetCompleted
      rw [List.map_append]
      congr 1
      · have hid2 : ∀ p ∈ db.rows,
            (if p.1 == db.nextId then (p.1, { p.2 with completed := true }) else p)
              = id p := by
          intro p hp
          have hne : (p.1 == db.nextId) = false := by
            simp [Nat.ne_of_lt (hfresh p hp)]
          simp [hne]
        rw [List.map_congr_left hid2, List.map_id]
      · simp
    have hidem : MainSurvey.mark_section_complete
        (MainSurvey.mark_section_complete db hid sec) hid sec
        = MainSurvey.mark_section_complete db hid sec := by
      rw [hm, ms_mark_update _ hid sec _ hfind2]
      simpa using hrows
    refine ⟨hidem, fun _ => ?_⟩
    rw [hidem, hm]
    have hnil : db.rows.filter
        (fun p => p.2.holder_id == hid && p.2.section_no == some sec) = [] := by
      apply List.filter_eq_nil_iff.mpr
      simpa using List.find?_eq_none.mp hfind
    constructor
    · simp [pairRows, List.filter_append, hnil]
    · intro p hp
      simp [pairRows, List.filter_append, hnil] at hp
      simp [hp]
  | some e =>
    have pred_e := List.find?_some hfind
    have he_mem := List.mem_of_find?_eq_some hfind
    have hm := ms_mark_update db hid sec e hfind
    have hPupd : ((fun p : Nat × PRow =>
          p.2.holder_id == hid && p.2.section_no == some sec) ∘
        (fun p => if p.1 == e.1 then (p.1, { p.2 with completed := true }) else p))
        = (fun p : Nat × PRow =>
            p.2.holder_id == hid && p.2.section_no == some sec) := by
      funext p
      by_cases h : p.1 = e.1
      · simp [h]
      · simp [h]
    have hfind2 : (progSetCompleted db.rows e.1).find?
        (fun p => p.2.holder_id == hid && p.2.section_no == some sec)
        = some (if e.1 == e.1 then (e.1, { e.2 with completed := true }) else e) := by
      unfold progSetCompleted
      rw [List.find?_map, hPupd, hfind]
      rfl
    have hfst : (if e.1 == e.1 then (e.1, { e.2 with completed := true }) else e).1
        = e.1 := by
      simp
    have hidem : MainSurvey.mark_section_complete
        (MainSurvey.mark_section_complete db hid sec) hid sec
        = MainSurvey.mark_section_complete db hid sec := by
      rw [hm, ms_mark_update _ hid sec _ hfind2]
      simp only [hfst, progSetCompleted_twice]
    refine ⟨hidem, fun hpair => ?_⟩
    rw [hidem, hm]
    have hfilter : pairRows { db with rows := progSetCompleted db.rows e.1 } hid sec
        = (db.rows.filter
            (fun p => p.2.holder_id == hid && p.2.section_no == some sec)).map
          (fun p => if p.1 == e.1 then (p.1, { p.2 with completed := true }) else p) := by
      unfold pairRows progSetCompleted
      rw [List.filter_map, hPupd]
    have hone : (db.rows.filter
        (fun p => p.2.holder_id == hid && p.2.section_no == some sec)).length = 1 := by
      have hge : e ∈ db.rows.filter
          (fun p => p.2.holder_id == hid && p.2.section_no == some sec) :=
        List.mem_filter.mpr ⟨he_mem, pred_e⟩
      have := List.length_pos.mpr (List.ne_nil_of_mem hge)
      have hle : (pairRows db hid sec).length ≤ 1 := hpair
      unfold pairRows at hle
      omega
    obtain ⟨a, ha⟩ := List.length_eq_one.mp hone
    have hae : a = e := by
      have hmem : e ∈ db.rows.filter
          (fun p => p.2.holder_id == hid && p.2.section_no == some sec) :=
        List.mem_filter.mpr ⟨he_mem, pred_e⟩
      rw [ha] at hmem
      exact (List.mem_singleton.mp hmem).symm
    subst hae
    constructor
    · rw [hfilter, ha]
      simp
    · intro p hp
      rw [hfilter, ha] at hp
      simp at hp
      simp [hp]

/-- Witness for C2: marking section 2 complete twice for holder 7 from an
empty progress table is idempotent and leaves exactly one completed row. -/
theorem mark_section_complete_idempotent_witness :
    MainSurvey.mark_section_complete
        (MainSurvey.mark_section_complete emptyProgDB 7 2) 7 2
      = MainSurvey.mark_section_complete emptyProgDB 7 2 ∧
    (pairRows (MainSurvey.mark_section_complete
        (MainSurvey.mark_section_complete emptyProgDB 7 2) 7 2) 7 2).length = 1 := by
  have h := mark_section_complete_idempotent emptyProgDB 7 2
    (by simp [emptyProgDB])
  exact ⟨h.1, (h.2 (by simp [pairRows, emptyProgDB])).1⟩

/-- C6: if any statement of the machinery or land-use save transaction
raises, the rollback leaves the persisted state exactly as before the
call — no partial subset of the new rows and no lost prior rows. -/
theorem save_rollback_atomic :
    (∀ (fail : Stmt → Bool) (db : MachDB) (data : List MRow),
      (save_to_db_run fail db data).ok = false →
      (save_to_db_run fail db data).db = db) ∧
    (∀ (fail : LStmt → Bool) (db : LandDB) (d : LandUseData) (hid : Nat),
      (save_land_use_run fail db d hid).2 = false →
      (save_land_use_run fail db d hid).1 = db) := by
  constructor
  · intro fail db data hok
    cases data with
    | nil => rfl
    | cons first rest =>
      rcases htx : save_to_db_tx fail db (first :: rest) with ⟨tr, res⟩
      cases res with
      | ok db2 => simp [save_to_db_run, htx] at hok
      | error e => simp [save_to_db_run, htx]
  · intro fail db d hid hok
    cases htx : save_land_use_tx fail db d hid with
    | ok db2 => simp [save_land_use_run, htx] at hok
    | error e => simp [save_land_use_run, htx]

/-- Witness for C6: with every statement failing, both saves return the
original state unchanged. -/
theorem save_rollback_atomic_witness :
    (save_to_db_run (fun _ => true) emptyMachDB [sampleRowOk]).db = emptyMachDB ∧
    (save_land_use_run (fun _ => true) emptyLandDB sampleLandUseData 42).1
      = emptyLandDB := by
  exact ⟨save_rollback_atomic.1 (fun _ => true) emptyMachDB [sampleRowOk] rfl,
         save_rollback_atomic.2 (fun _ => true) emptyLandDB sampleLandUseData 42 rfl⟩

/-- C7 counterexample: `holding_labour.mark_section_complete` has no
exception handler, so a raising statement propagates out of the function
as a raw exception (`Except.error`), contradicting "no raw exception
propagates out of the repository functions". -/
theorem exception_containment_counterexample :
    HoldingLabour.mark_section_complete_run (fun _ => true) emptyProgDB 7
      = Except.error () := rfl

/-- C7 (amended): the machinery and land-use save functions catch every
transaction exception, converting it to a `False` return with rollback;
but `holding_labour.mark_section_complete` propagates database exceptions
uncaught. -/
theorem exception_containment_amended :
    (∀ (fail : Stmt → Bool) (db : MachDB) (data : List MRow) (tr : List Stmt),
      save_to_db_tx fail db data = (tr, Except.error ()) →
      save_to_db_run fail db data =
        { db := db, ok := false, warned := false, stmts := tr }) ∧
    (∀ (fail : LStmt → Bool) (db : LandDB) (d : LandUseData) (hid : Nat),
      save_land_use_tx fail db d hid = Except.error () →
      save_land_use_run fail db d hid = (db, false)) ∧
    (∀ (db : ProgDB) (hid : Nat),
      HoldingLabour.mark_section_complete_run (fun _ => true) db hid
        = Except.error ()) := by
  refine ⟨?_, ?_, ?_⟩
  · intro fail db data tr htx
    cases data with
    | nil => simp [save_to_db_tx] at htx
    | cons first rest => simp [save_to_db_run, htx]
  · intro fail db d hid htx
    simp [save_land_use_run, htx]
  · intro db hid
    rfl

/-- Witness for C7's amended statement at concrete inputs. -/
theorem exception_containment_amended_witness :
    save_to_db_run (fun _ => true) emptyMachDB [sampleRowOk]
      = { db := emptyMachDB, ok := false, warned := false,
          stmts := [Stmt.selectCount] } ∧
    save_land_use_run (fun _ => true) emptyLandDB sampleLandUseData 42
      = (emptyLandDB, false) ∧
    HoldingLabour.mark_section_complete_run (fun _ => true) emptyProgDB 9
      = Except.error () := by
  exact ⟨exception_containment_amended.1 (fun _ => true) emptyMachDB
           [sampleRowOk] [Stmt.selectCount] rfl,
         exception_containment_amended.2.1 (fun _ => true) emptyLandDB
           sampleLandUseData 42 rfl,
         exception_containment_amended.2.2 emptyProgDB 9⟩

lemma filterMap_filter_eq {α β : Type} (q : α → Bool) (f : α → Option β)
    (l : List α) :
    (l.filter q).filterMap f
      = l.filterMap (fun a => if q a then f a else none) := by
  induction l with
  | nil => rfl
  | cons a t ih =>
    by_cases h : q a = true <;>
      simp [List.filter_cons, h, List.filterMap_cons, ih]

lemma get_completed_filterMap (db : ProgDB) (holder : Nat) :
    (MainSurvey.get_completed_sections db holder).filterMap id
      = db.rows.filterMap fun p =>
          if p.2.holder_id == holder && p.2.completed then p.2.section_no
          else none := by
  unfold MainSurvey.get_completed_sections
  rw [List.filterMap_map, filterMap_filter_eq]
  rfl

/-- C9 counterexample: from an empty progress table, completing section 2
for holder 7 through `holding_labour.mark_section_complete` changes what
`main_survey.get_completed_sections` returns for holder 7 (the inserted
row matches `completed = TRUE` and contributes its NULL `section_no`). -/
theorem labour_progress_counterexample :
    MainSurvey.get_completed_sections
        (HoldingLabour.mark_section_complete emptyProgDB 7) 7
      ≠ MainSurvey.get_completed_sections emptyProgDB 7 := by decide

/-- C9 (amended): because the labour modules write the `section_id`
column while `get_completed_sections` selects `section_no`, marking a
section complete through them never changes the non-NULL section numbers
the reader returns — though the new row does appear as a NULL entry (see
the counterexample).  Holds on states where no row has both columns set
and ids are unique. -/
theorem labour_progress_amended (db : ProgDB) (hid holder : Nat)
    (hdisj : ∀ p ∈ db.rows, p.2.section_id ≠ none → p.2.section_no = none)
    (hnodup : (db.rows.map Prod.fst).Nodup) :
    (∀ sec : Nat,
      (MainSurvey.get_completed_sections
          (progress_mark_pure sec db hid) holder).filterMap id
        = (MainSurvey.get_completed_sections db holder).filterMap id) ∧
    (MainSurvey.get_completed_sections
        (HoldingLabour.mark_section_complete db hid) holder).filterMap id
      = (MainSurvey.get_completed_sections db holder).filterMap id ∧
    (MainSurvey.get_completed_sections
        (HoldingLabourPermanent.mark_section_complete db hid) holder).filterMap id
      = (MainSurvey.get_completed_sections db holder).filterMap id := by
  have main : ∀ sec : Nat,
      (MainSurvey.get_completed_sections
          (progress_mark_pure sec db hid) holder).filterMap id
        = (MainSurvey.get_completed_sections db holder).filterMap id := by
    intro sec
    rw [get_completed_filterMap, get_completed_filterMap]
    cases hfind : db.rows.find?
        (fun p => p.2.holder_id == hid && p.2.section_id == some sec) with
    | none =>
      have hrows : (progress_mark_pure sec db hid).rows
          = db.rows ++
            [(db.nextId, { holder_id := hid, section_no := none,
                           section_id := some sec, completed := true })] := by
        unfold progress_mark_pure progress_mark_by_section_id
        simp [hfind]
      rw [hrows, List.filterMap_append]
      simp
    | some e =>
      have pred_e := List.find?_some hfind
      have he_mem := List.mem_of_find?_eq_some hfind
      have hsid : e.2.section_id = some sec := by
        have := (Bool.and_eq_true_iff.mp pred_e).2
        simpa using this
      have hsno : e.2.section_no = none :=
        hdisj e he_mem (by simp [hsid])
      have hrows : (progress_mark_pure sec db hid).rows
          = progSetCompleted db.rows e.1 := by
        unfold progress_mark_pure progress_mark_by_section_id
        simp [hfind]
      rw [hrows]
      unfold progSetCompleted
      rw [List.filterMap_map]
      apply List.filterMap_congr
      intro p hp
      by_cases hpe : p.1 = e.1
      · have hpeq : p = e :=
          List.inj_on_of_nodup_map hnodup hp he_mem hpe
      
        subst hpeq
        simp [hsno]
      · simp [hpe]
  refine ⟨main, main HoldingLabour.SECTION_NO, main HoldingLabourPermanent.SECTION_NO⟩

/-- Witness for C9's amended statement: on the empty progress table the
non-NULL completed section numbers for holder 7 are unchanged by the
labour modules' mark. -/
theorem labour_progress_amended_witness :
    (MainSurvey.get_completed_sections
        (HoldingLabour.mark_section_complete emptyProgDB 7) 7).filterMap id
      = (MainSurvey.get_completed_sections emptyProgDB 7).filterMap id := by
  exact (labour_progress_amended emptyProgDB 7 7 (by simp [emptyProgDB])
    (by simp [emptyProgDB])).2.1
